import Mathlib

/-!
Verification development for the task-management HTTP service.

The JavaScript sources are shallowly embedded as pure Lean functions:

- src/unnamed/part_002 (the User model): password hashing, token issuance
  (generateAuthToken), comparePassword, and the toJSON response shaping.
- src/middleware/auth.js: the access-guard middleware, modelled twice, at the
  raw Authorization-header level (character lists, the replace of the first
  occurrence of the Bearer marker) and at the verified-token level.
- src/routes/auth.js: register, login, me and logout handlers.
- src/unnamed/part_001 and src/models/task.js: the task schema, the Joi
  validation schema, and the list/get/create/update/delete handlers.

External collaborators (bcrypt, the Joi email format check, the JWT string
codec) are passed in as function parameters, exactly where the code calls a
library. MongoDB documents are lists of records; a save replaces the record
with the matching _id. Times are natural numbers.
-/

namespace TaskApi

/-- Mongoose schema setter lowercase on the email path of the User model:
applied both when a document is saved and to query filter values. -/
def strLower (s : String) : String :=
  ⟨s.data.map Char.toLower⟩

/-- Mongoose schema setter trim on string paths of the models. -/
def strTrim (s : String) : String :=
  ⟨((s.data.dropWhile Char.isWhitespace).reverse.dropWhile Char.isWhitespace).reverse⟩

/-- The role enum of the User schema, values user and admin. -/
inductive Role where
  | user
  | admin
deriving DecidableEq, Repr

/-- The claims jwt.sign embeds in a token in generateAuthToken, together with
the issued-at and expiry timestamps added by the expiresIn option. -/
structure TokenPayload where
  _id : Nat
  email : String
  role : Role
  iat : Nat
  exp : Nat
deriving DecidableEq, Repr

/-- A signed token string. The JWT codec is deterministic and injective on
payload and signing secret, so a token string is modelled as the pair of the
two; equality of values coincides with equality of the real strings. -/
structure Tok where
  payload : TokenPayload
  secret : String
deriving DecidableEq, Repr

/-- The validity window of generateAuthToken, expiresIn 7d, in seconds. -/
def sevenDays : Nat := 7 * 24 * 60 * 60

/-- jwt.sign as called by generateAuthToken: payload of _id, email and role,
plus iat now and exp now + 7 days. -/
def jwtSign (uid : Nat) (email : String) (role : Role) (secret : String) (now : Nat) : Tok :=
  { payload := { _id := uid, email := email, role := role, iat := now, exp := now + sevenDays },
    secret := secret }

/-- jwt.verify: checks the signature (here: the signing secret) and the expiry
claim; returns the decoded payload, or none where the library throws. -/
def jwtVerify (t : Tok) (secret : String) (now : Nat) : Option TokenPayload :=
  if t.secret = secret ∧ now < t.payload.exp then some t.payload else none

/-- A User document. The password field stores the bcrypt hash produced by the
pre save hook; tokens is the array of active session tokens (each array entry
wraps a single token string, modelled as the token itself). -/
structure User where
  _id : Nat
  name : String
  email : String
  password : String
  role : Role
  createdAt : Nat
  tokens : List Tok
deriving DecidableEq, Repr

/-- userSchema.methods.generateAuthToken: signs a token from _id, email and
role, concatenates it onto the tokens array and returns it along with the
updated document (the save is performed by the caller through saveUser). -/
def generateAuthToken (u : User) (secret : String) (now : Nat) : Tok × User :=
  let token := jwtSign u._id u.email u.role secret now
  (token, { u with tokens := u.tokens ++ [token] })

/-- Persisting a User document: replaces the stored document carrying the same
_id, matching per-document atomic writes of the backing store. -/
def saveUser (db : List User) (u : User) : List User :=
  db.map (fun v => if v._id = u._id then u else v)

/-- The logout handler body: req.user.tokens filtered to those entries whose
token differs from req.token. -/
def logout (reqUser : User) (reqToken : Tok) : User :=
  { reqUser with tokens := reqUser.tokens.filter (fun tokenObj => !(tokenObj == reqToken)) }

/-- Outcome of the auth middleware: a 401 with the given error body, or the
resolved user and token attached to the request. -/
inductive AuthResult where
  | unauthenticated (error : String)
  | ok (user : User) (token : Tok)
deriving DecidableEq, Repr

/-- src/middleware/auth.js, after token extraction from the header: missing
token denied, jwt.verify failure lands in the catch block, then the lookup
User.findOne on matching _id with the token still present in the tokens
array. -/
def auth (presented : Option Tok) (secret : String) (now : Nat) (users : List User) : AuthResult :=
  match presented with
  | none => .unauthenticated "No token, authorization denied"
  | some token =>
    match jwtVerify token secret now with
    | none => .unauthenticated "Token is not valid"
    | some decoded =>
      match users.find? (fun u => decide (u._id = decoded._id ∧ token ∈ u.tokens)) with
      | none => .unauthenticated "Token is not valid"
      | some user => .ok user token

/-- Raw header text, for the framing phase of the middleware. -/
abbrev Str := List Char

/-- The marker removed from the Authorization header value. -/
def bearerTag : Str := "Bearer ".toList

/-- JavaScript String.replace with a plain-string pattern: removes only the
first occurrence of the pattern (replacement here is the empty string). -/
def replaceFirst (pat : Str) (s : Str) : Str :=
  match s with
  | [] => []
  | c :: rest =>
    if pat.isPrefixOf (c :: rest) then (c :: rest).drop pat.length
    else c :: replaceFirst pat rest

/-- Whether the pattern occurs as a contiguous run anywhere in the text. -/
def hasOccurrence (pat : Str) (s : Str) : Bool :=
  pat.isPrefixOf s ||
    match s with
    | [] => false
    | _ :: rest => hasOccurrence pat rest

/-- Outcome of the middleware at the header level; the token parser and user
lookup are abstracted, so the result carries the extracted token text. -/
inductive AuthOutcome where
  | denied (error : String)
  | granted (userId : Nat) (token : Str)
deriving DecidableEq, Repr

/-- Verification onwards (lines 16 to 37 of src/middleware/auth.js), generic
in the JWT string codec and the user lookup, which are library and database
calls there. -/
def authVerifyPhase (verify : Str → Option TokenPayload)
    (findUserTok : TokenPayload → Str → Option Nat) (token : Str) : AuthOutcome :=
  match verify token with
  | none => .denied "Token is not valid"
  | some decoded =>
    match findUserTok decoded token with
    | none => .denied "Token is not valid"
    | some uid => .granted uid token

/-- The full middleware on the raw Authorization header (lines 8 to 37):
optional chaining replace of the first Bearer marker, the falsy test on the
result, then verification. -/
def authHeader (verify : Str → Option TokenPayload)
    (findUserTok : TokenPayload → Str → Option Nat) (header : Option Str) : AuthOutcome :=
  match header with
  | none => .denied "No token, authorization denied"
  | some h =>
    let token := replaceFirst bearerTag h
    if token.isEmpty then .denied "No token, authorization denied"
    else authVerifyPhase verify findUserTok token

/-- JSON values, as far as response shaping needs them. -/
inductive JVal where
  | s (v : String)
  | n (v : Nat)
  | obj (fields : List (String × JVal))
  | arr (elems : List JVal)
  | tok (t : Tok)

/-- Wire form of the role enum. -/
def roleStr : Role → String
  | .user => "user"
  | .admin => "admin"

/-- Mongoose toObject on a User document: every stored field as a key-value
list (the password field is present on documents loaded with select +password
or freshly constructed, which is where toJSON runs in these routes). -/
def toObject (u : User) : List (String × JVal) :=
  [("_id", .n u._id),
   ("name", .s u.name),
   ("email", .s u.email),
   ("password", .s u.password),
   ("role", .s (roleStr u.role)),
   ("createdAt", .n u.createdAt),
   ("tokens", .arr (u.tokens.map (fun t => .obj [("token", .tok t)])))]

/-- userSchema.methods.toJSON: toObject with the password and tokens keys
deleted. -/
def toJSON (u : User) : List (String × JVal) :=
  (toObject u).filter (fun kv => !(kv.1 == "password") && !(kv.1 == "tokens"))

/-- Request body of POST /api/auth/register. -/
structure RegisterBody where
  name : String
  email : String
  password : String
deriving DecidableEq, Repr

/-- The Joi registerSchema: name 2 to 50 characters, email format (the Joi
email check is an external collaborator, passed in), password at least 6
characters; first failure is reported. -/
def validateRegister (emailOk : String → Bool) (b : RegisterBody) : Except String RegisterBody :=
  if b.name.length < 2 then .error "name length must be at least 2 characters long"
  else if 50 < b.name.length then .error "name length must be at most 50 characters long"
  else if !(emailOk b.email) then .error "email must be a valid email"
  else if b.password.length < 6 then .error "password length must be at least 6 characters long"
  else .ok b

/-- Outcome of the register handler. -/
inductive RegisterResult where
  | httpError (status : Nat) (error : String)
  | created (user : User) (token : Tok)
deriving DecidableEq, Repr

/-- POST /api/auth/register: validate, duplicate-email lookup (the stored
email is lowercased by the schema setter, and the setter equally applies to
the query filter value), create the user with the bcrypt-hashed password,
then issue a token and persist. -/
def register (emailOk : String → Bool) (hash : String → String) (secret : String)
    (db : List User) (freshId : Nat) (now : Nat) (b : RegisterBody) :
    RegisterResult × List User :=
  match validateRegister emailOk b with
  | .error m => (.httpError 400 m, db)
  | .ok v =>
    match db.find? (fun u => u.email == strLower v.email) with
    | some _ => (.httpError 400 "User already exists with this email", db)
    | none =>
      let user0 : User :=
        { _id := freshId, name := strTrim v.name, email := strLower v.email,
          password := hash v.password, role := .user, createdAt := now, tokens := [] }
      let tu := generateAuthToken user0 secret now
      (.created tu.2 tu.1, saveUser (db ++ [user0]) tu.2)

/-- Response shaping of the register handler: status plus JSON body, the user
rendered through toJSON. -/
def renderRegister : RegisterResult → Nat × JVal
  | .httpError st m => (st, .obj [("error", .s m)])
  | .created u t =>
    (201, .obj [("message", .s "User registered successfully"),
                ("user", .obj (toJSON u)), ("token", .tok t)])

/-- Request body of POST /api/auth/login. -/
structure LoginBody where
  email : String
  password : String
deriving DecidableEq, Repr

/-- The Joi loginSchema: email format and a required, nonempty password. -/
def validateLogin (emailOk : String → Bool) (b : LoginBody) : Except String LoginBody :=
  if !(emailOk b.email) then .error "email must be a valid email"
  else if b.password.length < 1 then .error "password is not allowed to be empty"
  else .ok b

/-- Outcome of the login handler. -/
inductive LoginResult where
  | httpError (status : Nat) (error : String)
  | success (user : User) (token : Tok)
deriving DecidableEq, Repr

/-- POST /api/auth/login: validate, find the user by email (select +password
includes the stored hash), compare the candidate password through bcrypt
(passed in), then issue a token and persist. Both credential failures return
the identical 401 body. -/
def login (emailOk : String → Bool) (compare : String → String → Bool) (secret : String)
    (db : List User) (now : Nat) (b : LoginBody) : LoginResult × List User :=
  match validateLogin emailOk b with
  | .error m => (.httpError 400 m, db)
  | .ok v =>
    match db.find? (fun u => u.email == strLower v.email) with
    | none => (.httpError 401 "Invalid credentials", db)
    | some user =>
      if !(compare v.password user.password) then (.httpError 401 "Invalid credentials", db)
      else
        let tu := generateAuthToken user secret now
        (.success tu.2 tu.1, saveUser db tu.2)

/-- Response shaping of the login handler. -/
def renderLogin : LoginResult → Nat × JVal
  | .httpError st m => (st, .obj [("error", .s m)])
  | .success u t =>
    (200, .obj [("message", .s "Login successful"),
                ("user", .obj (toJSON u)), ("token", .tok t)])

/-- GET /api/auth/me: res.json of the resolved request user. -/
def meResponse (reqUser : User) : Nat × JVal :=
  (200, .obj [("user", .obj (toJSON reqUser))])

/-- The status enum of the task schema. -/
inductive Status where
  | pending
  | inProgress
  | completed
deriving DecidableEq, Repr

/-- The priority enum of the task schema. -/
inductive Priority where
  | low
  | medium
  | high
deriving DecidableEq, Repr

/-- Wire form of the status enum. -/
def statusStr : Status → String
  | .pending => "pending"
  | .inProgress => "in-progress"
  | .completed => "completed"

/-- Wire form of the priority enum. -/
def priorityStr : Priority → String
  | .low => "low"
  | .medium => "medium"
  | .high => "high"

/-- A Task document of src/models/task.js. -/
structure Task where
  _id : Nat
  title : String
  description : Option String
  status : Status
  priority : Priority
  dueDate : Option Nat
  owner : Nat
  createdAt : Nat
  updatedAt : Nat
deriving DecidableEq, Repr

/-- A raw request body for the task routes; none marks an absent key. Status
and priority arrive as plain strings and are checked against the enums. -/
structure RawTaskBody where
  title : Option String
  description : Option String
  status : Option String
  priority : Option String
  dueDate : Option Nat
deriving DecidableEq, Repr

/-- The value a successful Joi validation returns: only the supplied keys. -/
structure TaskBody where
  title : String
  description : Option String
  status : Option Status
  priority : Option Priority
  dueDate : Option Nat
deriving DecidableEq, Repr

/-- Joi title rule: required string of 1 to 100 characters. -/
def checkTitle (v : Option String) : Except String String :=
  match v with
  | none => .error "title is required"
  | some s =>
    if s.length < 1 then .error "title is not allowed to be empty"
    else if 100 < s.length then .error "title length must be at most 100 characters long"
    else .ok s

/-- Joi description rule: optional string of at most 500 characters. -/
def checkDescription (v : Option String) : Except String (Option String) :=
  match v with
  | none => .ok none
  | some s =>
    if 500 < s.length then .error "description length must be at most 500 characters long"
    else .ok (some s)

/-- Joi status rule: optional, one of the enum values. -/
def checkStatus (v : Option String) : Except String (Option Status) :=
  match v with
  | none => .ok none
  | some s =>
    if s = "pending" then .ok (some .pending)
    else if s = "in-progress" then .ok (some .inProgress)
    else if s = "completed" then .ok (some .completed)
    else .error "status must be one of pending, in-progress, completed"

/-- Joi priority rule: optional, one of the enum values. -/
def checkPriority (v : Option String) : Except String (Option Priority) :=
  match v with
  | none => .ok none
  | some s =>
    if s = "low" then .ok (some .low)
    else if s = "medium" then .ok (some .medium)
    else if s = "high" then .ok (some .high)
    else .error "priority must be one of low, medium, high"

/-- Joi dueDate rule: optional, strictly greater than the current moment. -/
def checkDueDate (now : Nat) (v : Option Nat) : Except String (Option Nat) :=
  match v with
  | none => .ok none
  | some d =>
    if now < d then .ok (some d)
    else .error "dueDate must be greater than now"

/-- The Joi taskSchema of the task routes, keys checked in schema order with
the first failure reported. -/
def validateTask (now : Nat) (b : RawTaskBody) : Except String TaskBody := do
  let ti ← checkTitle b.title
  let de ← checkDescription b.description
  let st ← checkStatus b.status
  let pr ← checkPriority b.priority
  let dd ← checkDueDate now b.dueDate
  return { title := ti, description := de, status := st, priority := pr, dueDate := dd }

/-- Outcome of a task route. -/
inductive TaskResult where
  | httpError (status : Nat) (error : String)
  | taskOk (status : Nat) (message : Option String) (task : Task)
  | deleteOk (message : String)
deriving DecidableEq, Repr

/-- The owner-scoped filter every single-task route queries with: matching
_id and owner equal to the authenticated user. -/
def taskPred (uid tid : Nat) (t : Task) : Bool :=
  decide (t._id = tid ∧ t.owner = uid)

/-- GET /api/tasks/:id. -/
def getTask (tasks : List Task) (uid tid : Nat) : TaskResult :=
  match tasks.find? (taskPred uid tid) with
  | none => .httpError 404 "Task not found"
  | some t => .taskOk 200 none t

/-- POST /api/tasks: validate, then save a new document; the schema defaults
fill status, priority and the timestamps, the trim setters apply, and the
pre save hook stamps updatedAt. -/
def createTask (now : Nat) (tasks : List Task) (uid freshId : Nat) (b : RawTaskBody) :
    TaskResult × List Task :=
  match validateTask now b with
  | .error m => (.httpError 400 m, tasks)
  | .ok v =>
    let t : Task :=
      { _id := freshId, title := strTrim v.title, description := v.description.map strTrim,
        status := v.status.getD .pending, priority := v.priority.getD .medium,
        dueDate := v.dueDate, owner := uid, createdAt := now, updatedAt := now }
    (.taskOk 201 (some "Task created successfully") t, tasks ++ [t])

/-- The effect of findOneAndUpdate on the found document: a set of exactly
the supplied keys (string setters applied). The update pipeline does not run
the save middleware, so updatedAt is left as stored; _id, owner and createdAt
are not part of the update value. -/
def applyUpdate (t : Task) (v : TaskBody) : Task :=
  { t with
    title := strTrim v.title,
    description := match v.description with | none => t.description | some d => some (strTrim d),
    status := v.status.getD t.status,
    priority := v.priority.getD t.priority,
    dueDate := match v.dueDate with | none => t.dueDate | some d => some d }

/-- findOneAndUpdate: rewrites the first document matching the filter,
returning the updated document (the option new). -/
def updateFirst (p : Task → Bool) (f : Task → Task) : List Task → Option Task × List Task
  | [] => (none, [])
  | t :: ts =>
    if p t then (some (f t), f t :: ts)
    else
      let r := updateFirst p f ts
      (r.1, t :: r.2)

/-- PUT /api/tasks/:id: validate, then findOneAndUpdate under the owner
filter; a missing match is a 404. -/
def updateTask (now : Nat) (tasks : List Task) (uid tid : Nat) (b : RawTaskBody) :
    TaskResult × List Task :=
  match validateTask now b with
  | .error m => (.httpError 400 m, tasks)
  | .ok v =>
    match updateFirst (taskPred uid tid) (fun t => applyUpdate t v) tasks with
    | (none, ts) => (.httpError 404 "Task not found", ts)
    | (some t, ts) => (.taskOk 200 (some "Task updated successfully") t, ts)

/-- findOneAndDelete: removes the first document matching the filter. -/
def deleteFirst (p : Task → Bool) : List Task → Option Task × List Task
  | [] => (none, [])
  | t :: ts =>
    if p t then (some t, ts)
    else
      let r := deleteFirst p ts
      (r.1, t :: r.2)

/-- DELETE /api/tasks/:id. -/
def deleteTask (tasks : List Task) (uid tid : Nat) : TaskResult × List Task :=
  match deleteFirst (taskPred uid tid) tasks with
  | (none, ts) => (.httpError 404 "Task not found", ts)
  | (some _, ts) => (.deleteOk "Task deleted successfully", ts)

/-- Query parameters of GET /api/tasks; none marks an absent (or falsy)
parameter, for which the handler defaults apply. -/
structure ListQuery where
  status : Option String
  priority : Option String
  sortBy : Option String
  sortOrder : Option String
  page : Option Nat
  limit : Option Nat
deriving DecidableEq, Repr

/-- The find filter the list handler builds: always the owner, plus equality
on status and priority when those query parameters are present. -/
def matchesQuery (uid : Nat) (q : ListQuery) (t : Task) : Bool :=
  decide (t.owner = uid) &&
    (match q.status with
     | none => true
     | some s => decide (statusStr t.status = s)) &&
    (match q.priority with
     | none => true
     | some s => decide (priorityStr t.priority = s))

/-- The sort key a field name denotes on a task document; missing values
(an absent dueDate, an unknown field name) sort lowest. -/
def taskField (sortBy : String) (t : Task) : Option (Nat ⊕ String) :=
  if sortBy = "createdAt" then some (.inl t.createdAt)
  else if sortBy = "updatedAt" then some (.inl t.updatedAt)
  else if sortBy = "dueDate" then t.dueDate.map .inl
  else if sortBy = "title" then some (.inr t.title)
  else if sortBy = "status" then some (.inr (statusStr t.status))
  else if sortBy = "priority" then some (.inr (priorityStr t.priority))
  else if sortBy = "_id" then some (.inl t._id)
  else none

/-- Order on sort keys: missing below numbers below strings, mirroring the
cross-type order of the backing store. -/
def valLe : Option (Nat ⊕ String) → Option (Nat ⊕ String) → Bool
  | none, _ => true
  | some _, none => false
  | some (.inl a), some (.inl b) => decide (a ≤ b)
  | some (.inl _), some (.inr _) => true
  | some (.inr _), some (.inl _) => false
  | some (.inr a), some (.inr b) => decide (a ≤ b)

/-- The comparator the sort object denotes: descending exactly when sortOrder
is the string desc, ascending otherwise. -/
def sortComp (sortBy sortOrder : String) (a b : Task) : Bool :=
  if sortOrder = "desc" then valLe (taskField sortBy b) (taskField sortBy a)
  else valLe (taskField sortBy a) (taskField sortBy b)

/-- The pagination block of the list response. -/
structure Pagination where
  page : Nat
  limit : Nat
  total : Nat
  pages : Nat
deriving DecidableEq, Repr

/-- The body of the list response. -/
structure ListResponse where
  tasks : List Task
  pagination : Pagination
deriving DecidableEq, Repr

/-- GET /api/tasks: defaults createdAt, desc, page 1, limit 10; filter, sort,
skip (page - 1) * limit, take limit; countDocuments on the same filter gives
total, and pages is the ceiling of total over limit (Math.ceil of the real
quotient, written over naturals for a positive limit). -/
def listTasks (allTasks : List Task) (uid : Nat) (q : ListQuery) : ListResponse :=
  let sortBy := q.sortBy.getD "createdAt"
  let sortOrder := q.sortOrder.getD "desc"
  let page := q.page.getD 1
  let limit := q.limit.getD 10
  let filtered := allTasks.filter (matchesQuery uid q)
  let sorted := filtered.mergeSort (sortComp sortBy sortOrder)
  let total := filtered.length
  { tasks := (sorted.drop ((page - 1) * limit)).take limit,
    pagination := { page := page, limit := limit, total := total,
                    pages := (total + limit - 1) / limit } }

/-- A concrete user record used to instantiate the claim theorems. -/
def wUser : User :=
  { _id := 1, name := "ann", email := "a@b.co", password := "hhhhhh", role := .user,
    createdAt := 0, tokens := [] }

/-- A concrete task record used to instantiate the claim theorems. -/
def wTask : Task :=
  { _id := 1, title := "a", description := none, status := .pending, priority := .medium,
    dueDate := none, owner := 1, createdAt := 0, updatedAt := 0 }

/-- A concrete valid task request body used to instantiate the claim
theorems. -/
def wBody : RawTaskBody :=
  { title := some "t", description := none, status := none, priority := none, dueDate := none }

/-- The list query of the pagination scenario: page 2, limit 10, no filters. -/
def wPageQuery : ListQuery :=
  { status := none, priority := none, sortBy := none, sortOrder := none,
    page := some 2, limit := some 10 }

/-- The list query with every parameter absent, exercising the handler
defaults. -/
def wDefaultQuery : ListQuery :=
  { status := none, priority := none, sortBy := none, sortOrder := none,
    page := none, limit := none }

/-- Fifteen concrete tasks of user 1, used to instantiate the pagination
claim. -/
def wTasks : List Task :=
  (List.range 15).map (fun i =>
    { _id := i, title := "a", description := none, status := .pending, priority := .medium,
      dueDate := none, owner := 1, createdAt := i, updatedAt := i })

/-! ## Helper lemmas -/

theorem find?_saveUser_pos (db : List User) (u x : User) (p : User → Bool)
    (hmem : u ∈ db) (hid : x._id = u._id) (hpx : p x = true)
    (hneg : ∀ v : User, v._id ≠ u._id → p v = false) :
    (saveUser db x).find? p = some x := by
  induction db with
  | nil => cases hmem
  | cons w rest ih =>
    show List.find? p ((if w._id = x._id then x else w) :: saveUser rest x) = some x
    by_cases hw : w._id = x._id
    · rw [if_pos hw, List.find?_cons_of_pos _ hpx]
    · rw [if_neg hw]
      have hww : w._id ≠ u._id := fun hc => hw (hc.trans hid.symm)
      rw [List.find?_cons_of_neg _ (by simp [hneg w hww])]
      have hmem' : u ∈ rest := by
        rcases List.mem_cons.mp hmem with hh | hh
        · exact absurd (hh ▸ hid.symm) hw
        · exact hh
      exact ih hmem'

theorem find?_saveUser_neg (db : List User) (x : User) (p : User → Bool)
    (hpx : p x = false) (hneg : ∀ v : User, v._id ≠ x._id → p v = false) :
    (saveUser db x).find? p = none := by
  apply List.find?_eq_none.mpr
  intro w hw
  rcases List.mem_map.mp hw with ⟨v, _, rfl⟩
  by_cases hvx : v._id = x._id
  · simp [hvx, hpx]
  · simp [hvx, hneg v hvx]

theorem replaceFirst_of_not_occ (pat s : Str) (h : hasOccurrence pat s = false) :
    replaceFirst pat s = s := by
  induction s with
  | nil => rfl
  | cons c rest ih =>
    rw [hasOccurrence, Bool.or_eq_false_iff] at h
    rw [replaceFirst, if_neg (by simp [h.1]), ih h.2]

theorem isPrefixOf_append_self (l t : Str) : l.isPrefixOf (l ++ t) = true := by
  induction l with
  | nil => simp [List.isPrefixOf]
  | cons a as ih => simp [List.isPrefixOf, ih]

theorem replaceFirst_append_self (pat t : Str) (hne : pat ≠ []) :
    replaceFirst pat (pat ++ t) = t := by
  cases pat with
  | nil => exact absurd rfl hne
  | cons a as =>
    show replaceFirst (a :: as) (a :: (as ++ t)) = t
    rw [replaceFirst, if_pos (by simp [isPrefixOf_append_self (a :: as) t])]
    exact List.drop_left (a :: as) t

theorem saveUser_append_of_fresh (db : List User) (u0 x : User)
    (hid : u0._id = x._id) (hfresh : ∀ v ∈ db, v._id ≠ x._id) :
    saveUser (db ++ [u0]) x = db ++ [x] := by
  rw [saveUser, List.map_append]
  congr 1
  · conv_rhs => rw [← List.map_id db]
    exact List.map_congr_left (fun v hv => by simp [hfresh v hv])
  · simp [hid]

theorem updateFirst_of_all_neg (p : Task → Bool) (f : Task → Task) (l : List Task)
    (h : ∀ x ∈ l, p x = false) : updateFirst p f l = (none, l) := by
  induction l with
  | nil => rfl
  | cons t ts ih =>
    rw [updateFirst, if_neg (by simp [h t (List.mem_cons_self t ts)]),
      ih (fun x hx => h x (List.mem_cons_of_mem t hx))]

theorem deleteFirst_of_all_neg (p : Task → Bool) (l : List Task)
    (h : ∀ x ∈ l, p x = false) : deleteFirst p l = (none, l) := by
  induction l with
  | nil => rfl
  | cons t ts ih =>
    rw [deleteFirst, if_neg (by simp [h t (List.mem_cons_self t ts)]),
      ih (fun x hx => h x (List.mem_cons_of_mem t hx))]

theorem ceil_div_spec (total limit : Nat) (hl : 0 < limit) :
    total ≤ ((total + limit - 1) / limit) * limit
    ∧ ((total + limit - 1) / limit) * limit < total + limit := by
  have h1 := Nat.div_add_mod (total + limit - 1) limit
  have h2 := Nat.mod_lt (total + limit - 1) hl
  rw [Nat.mul_comm]
  generalize limit * ((total + limit - 1) / limit) = x at h1 ⊢
  generalize (total + limit - 1) % limit = r at h1 h2
  omega

/-! ## Claim theorems -/

/-- C1: a token returned by generateAuthToken passes the guard immediately
after issuance and resolves to the issuing user; after logout removes it from
the active sessions, every guard check presenting the same token is a 401,
at every later moment, expired or not. -/
theorem c1_guard_token_lifecycle (db : List User) (u : User) (secret : String) (now now2 : Nat)
    (hmem : u ∈ db) :
    auth (some (generateAuthToken u secret now).1) secret now
        (saveUser db (generateAuthToken u secret now).2)
      = .ok (generateAuthToken u secret now).2 (generateAuthToken u secret now).1
    ∧ (generateAuthToken u secret now).2._id = u._id
    ∧ auth (some (generateAuthToken u secret now).1) secret now2
        (saveUser (saveUser db (generateAuthToken u secret now).2)
          (logout (generateAuthToken u secret now).2 (generateAuthToken u secret now).1))
      = .unauthenticated "Token is not valid" := by
  have hgen : generateAuthToken u secret now =
      (jwtSign u._id u.email u.role secret now,
       { u with tokens := u.tokens ++ [jwtSign u._id u.email u.role secret now] }) := rfl
  set tok := jwtSign u._id u.email u.role secret now with htok
  set uu : User := { u with tokens := u.tokens ++ [tok] } with huu
  rw [hgen]
  refine ⟨?_, rfl, ?_⟩
  · have hver : jwtVerify tok secret now = some tok.payload := by
      rw [jwtVerify, if_pos ⟨rfl, Nat.lt_add_of_pos_right (by decide)⟩]
    have hfind : (saveUser db uu).find?
        (fun v => decide (v._id = tok.payload._id ∧ tok ∈ v.tokens)) = some uu := by
      refine find?_saveUser_pos db u uu _ hmem rfl (decide_eq_true ⟨rfl, by simp [huu]⟩) ?_
      intro v hv
      exact decide_eq_false fun hc => hv hc.1
    simp only [auth, hver, hfind]
  · rcases hv2 : jwtVerify tok secret now2 with _ | d
    · simp [auth, hv2]
    · have hd : d = tok.payload := by
        rw [jwtVerify] at hv2
        split at hv2
        · exact (Option.some_inj.mp hv2).symm
        · cases hv2
      subst hd
      have hfind : (saveUser (saveUser db uu) (logout uu tok)).find?
          (fun v => decide (v._id = tok.payload._id ∧ tok ∈ v.tokens)) = none := by
        refine find?_saveUser_neg _ _ _ ?_ ?_
        · exact decide_eq_false fun hc => by
            have := hc.2
            simp [logout, huu, List.mem_filter] at this
        · intro v hv
          exact decide_eq_false fun hc => hv hc.1
      simp only [auth, hv2, hfind]

/-- C1 witness: the lifecycle at a concrete user, secret and pair of
moments. -/
theorem c1_guard_token_lifecycle_witness :
    auth (some (generateAuthToken wUser "cs" 5).1) "cs" 5
        (saveUser [wUser] (generateAuthToken wUser "cs" 5).2)
      = .ok (generateAuthToken wUser "cs" 5).2 (generateAuthToken wUser "cs" 5).1
    ∧ (generateAuthToken wUser "cs" 5).2._id = wUser._id
    ∧ auth (some (generateAuthToken wUser "cs" 5).1) "cs" 6
        (saveUser (saveUser [wUser] (generateAuthToken wUser "cs" 5).2)
          (logout (generateAuthToken wUser "cs" 5).2 (generateAuthToken wUser "cs" 5).1))
      = .unauthenticated "Token is not valid" :=
  c1_guard_token_lifecycle [wUser] wUser "cs" 5 6 (List.mem_singleton.mpr rfl)

/-- C9: a non-empty Authorization header that does not begin with the Bearer
marker is not rejected for framing: the middleware takes the whole header
value, with only the first occurrence of the marker removed if one occurs,
as the token and proceeds to verification; in particular a raw token without
the marker anywhere is processed exactly like the same token framed with the
marker. -/
theorem c9_raw_header_framing (verify : Str → Option TokenPayload)
    (findUserTok : TokenPayload → Str → Option Nat) (h : Str)
    (hne : h ≠ []) (hnp : bearerTag.isPrefixOf h = false) :
    authHeader verify findUserTok (some h)
      = authVerifyPhase verify findUserTok (replaceFirst bearerTag h)
    ∧ (hasOccurrence bearerTag h = false →
        replaceFirst bearerTag h = h
        ∧ authHeader verify findUserTok (some h)
            = authHeader verify findUserTok (some (bearerTag ++ h))) := by
  obtain ⟨c, rest, rfl⟩ : ∃ c rest, h = c :: rest := by
    cases h with
    | nil => exact absurd rfl hne
    | cons c rest => exact ⟨c, rest, rfl⟩
  have hrf : replaceFirst bearerTag (c :: rest) = c :: replaceFirst bearerTag rest := by
    rw [replaceFirst, if_neg (by simp [hnp])]
  have hmain : authHeader verify findUserTok (some (c :: rest))
      = authVerifyPhase verify findUserTok (replaceFirst bearerTag (c :: rest)) := by
    simp only [authHeader, hrf]
    rfl
  refine ⟨hmain, fun hocc => ?_⟩
  have h1 : replaceFirst bearerTag (c :: rest) = c :: rest :=
    replaceFirst_of_not_occ _ _ hocc
  refine ⟨h1, ?_⟩
  rw [hmain, h1]
  have h2 : replaceFirst bearerTag (bearerTag ++ (c :: rest)) = c :: rest :=
    replaceFirst_append_self _ _ (by decide)
  simp only [authHeader, h2]
  rfl

/-- C9 witness: a concrete raw header, codec and lookup. -/
theorem c9_raw_header_framing_witness :
    authHeader (fun _ => none) (fun _ _ => none) (some ("abc".toList))
      = authVerifyPhase (fun _ => none) (fun _ _ => none) (replaceFirst bearerTag ("abc".toList))
    ∧ (hasOccurrence bearerTag ("abc".toList) = false →
        replaceFirst bearerTag ("abc".toList) = "abc".toList
        ∧ authHeader (fun _ => none) (fun _ _ => none) (some ("abc".toList))
            = authHeader (fun _ => none) (fun _ _ => none)
                (some (bearerTag ++ "abc".toList))) :=
  c9_raw_header_framing (fun _ => none) (fun _ _ => none) ("abc".toList)
    (by decide) (by decide)

/-- C2: for a task owned by user A and any distinct user B, the get, update
and delete routes called by B on that id all answer 404 Task not found and
leave the store unchanged, and each call is indistinguishable from the same
call on an id that exists nowhere. -/
theorem c2_owner_isolation (tasks : List Task) (t : Task) (A B : Nat) (now freshTid : Nat)
    (b : RawTaskBody)
    (hmem : t ∈ tasks) (hown : t.owner = A) (hAB : B ≠ A)
    (hnd : (tasks.map Task._id).Nodup)
    (hfresh : freshTid ∉ tasks.map Task._id)
    (hb : ∃ v, validateTask now b = .ok v) :
    getTask tasks B t._id = .httpError 404 "Task not found"
    ∧ updateTask now tasks B t._id b = (.httpError 404 "Task not found", tasks)
    ∧ deleteTask tasks B t._id = (.httpError 404 "Task not found", tasks)
    ∧ getTask tasks B t._id = getTask tasks B freshTid
    ∧ updateTask now tasks B t._id b = updateTask now tasks B freshTid b
    ∧ deleteTask tasks B t._id = deleteTask tasks B freshTid := by
  obtain ⟨v, hv⟩ := hb
  have hall : ∀ x ∈ tasks, taskPred B t._id x = false := by
    intro x hx
    apply decide_eq_false
    rintro ⟨hid, hxo⟩
    have hxt : x = t := List.inj_on_of_nodup_map hnd hx hmem hid
    subst hxt
    exact hAB (hown ▸ hxo).symm
  have hallf : ∀ x ∈ tasks, taskPred B freshTid x = false := by
    intro x hx
    apply decide_eq_false
    rintro ⟨hid, -⟩
    exact hfresh (List.mem_map.mpr ⟨x, hx, hid⟩)
  have hfind : tasks.find? (taskPred B t._id) = none :=
    List.find?_eq_none.mpr (by intro x hx; simp [hall x hx])
  have hfindf : tasks.find? (taskPred B freshTid) = none :=
    List.find?_eq_none.mpr (by intro x hx; simp [hallf x hx])
  have hupd : updateFirst (taskPred B t._id) (fun x => applyUpdate x v) tasks = (none, tasks) :=
    updateFirst_of_all_neg _ _ _ hall
  have hupdf : updateFirst (taskPred B freshTid) (fun x => applyUpdate x v) tasks = (none, tasks) :=
    updateFirst_of_all_neg _ _ _ hallf
  have hdel : deleteFirst (taskPred B t._id) tasks = (none, tasks) :=
    deleteFirst_of_all_neg _ _ hall
  have hdelf : deleteFirst (taskPred B freshTid) tasks = (none, tasks) :=
    deleteFirst_of_all_neg _ _ hallf
  refine ⟨?_, ?_, ?_, ?_, ?_, ?_⟩
  · simp only [getTask, hfind]
  · simp only [updateTask, hv, hupd]
  · simp only [deleteTask, hdel]
  · simp only [getTask, hfind, hfindf]
  · simp only [updateTask, hv, hupd, hupdf]
  · simp only [deleteTask, hdel, hdelf]

/-- C2 witness: a concrete store holding one task of user 1, queried by
user 2 at a concrete fresh id. -/
theorem c2_owner_isolation_witness :
    getTask [wTask] 2 wTask._id = .httpError 404 "Task not found"
    ∧ updateTask 0 [wTask] 2 wTask._id wBody = (.httpError 404 "Task not found", [wTask])
    ∧ deleteTask [wTask] 2 wTask._id = (.httpError 404 "Task not found", [wTask])
    ∧ getTask [wTask] 2 wTask._id = getTask [wTask] 2 9
    ∧ updateTask 0 [wTask] 2 wTask._id wBody = updateTask 0 [wTask] 2 9 wBody
    ∧ deleteTask [wTask] 2 wTask._id = deleteTask [wTask] 2 9 :=
  c2_owner_isolation [wTask] wTask 1 2 0 9 wBody (List.mem_singleton.mpr rfl) rfl
    (by decide) (by decide) (by decide)
    ⟨{ title := "t", description := none, status := none, priority := none, dueDate := none },
      rfl⟩

/-- C3, evaluated at a failing input: the PUT route updates through
findOneAndUpdate, which does not run the save middleware of the task model,
so an update of the title at time 200 stores the supplied title, leaves every
other field (owner and createdAt included) unchanged, but also leaves
updatedAt at its pre-update value 0 instead of refreshing it to a strictly
later timestamp. -/
theorem c3_update_bypasses_save_hook :
    updateTask 200 [wTask] 1 1 wBody
      = (.taskOk 200 (some "Task updated successfully") { wTask with title := "t" },
         [{ wTask with title := "t" }])
    ∧ ({ wTask with title := "t" } : Task).updatedAt = wTask.updatedAt := by
  constructor
  · rfl
  · rfl

/-- C5: a create or update whose body carries a dueDate not strictly in the
future of the request moment is rejected with the 400 validation error before
any persistence attempt: no task is created and the store is unchanged. -/
theorem c5_past_dueDate_rejected (now : Nat) (tasks : List Task) (uid freshId tid : Nat)
    (b : RawTaskBody) (d : Nat)
    (hti : ∃ x, checkTitle b.title = .ok x)
    (hde : ∃ x, checkDescription b.description = .ok x)
    (hst : ∃ x, checkStatus b.status = .ok x)
    (hpr : ∃ x, checkPriority b.priority = .ok x)
    (hdd : b.dueDate = some d) (hpast : d ≤ now) :
    createTask now tasks uid freshId b
      = (.httpError 400 "dueDate must be greater than now", tasks)
    ∧ updateTask now tasks uid tid b
      = (.httpError 400 "dueDate must be greater than now", tasks) := by
  obtain ⟨ti, h1⟩ := hti
  obtain ⟨de, h2⟩ := hde
  obtain ⟨st, h3⟩ := hst
  obtain ⟨pr, h4⟩ := hpr
  have h5 : checkDueDate now b.dueDate = .error "dueDate must be greater than now" := by
    rw [hdd, checkDueDate, if_neg (by omega)]
  have hv : validateTask now b = .error "dueDate must be greater than now" := by
    simp only [validateTask, h1, h2, h3, h4, h5]
    rfl
  exact ⟨by simp only [createTask, hv], by simp only [updateTask, hv]⟩

/-- C5 witness: a body whose dueDate equals the request moment, on create
and update against a concrete store. -/
theorem c5_past_dueDate_rejected_witness :
    createTask 5 [] 1 2
        { title := some "t", description := none, status := none,
          priority := none, dueDate := some 5 }
      = (.httpError 400 "dueDate must be greater than now", [])
    ∧ updateTask 5 [] 1 1
        { title := some "t", description := none, status := none,
          priority := none, dueDate := some 5 }
      = (.httpError 400 "dueDate must be greater than now", []) :=
  c5_past_dueDate_rejected 5 [] 1 2 1 _ 5 ⟨"t", rfl⟩ ⟨none, rfl⟩ ⟨none, rfl⟩ ⟨none, rfl⟩
    rfl (by decide)

/-- C10: an update body that omits the title key fails Joi validation with
the 400 title-required error whatever the other fields hold and whether any
task matches the id: the store is returned untouched, before any lookup. -/
theorem c10_update_requires_title (now : Nat) (tasks : List Task) (uid tid : Nat)
    (b : RawTaskBody) (h : b.title = none) :
    updateTask now tasks uid tid b = (.httpError 400 "title is required", tasks) := by
  have hv : validateTask now b = .error "title is required" := by
    simp only [validateTask, h, checkTitle]
    rfl
  simp only [updateTask, hv]

/-- C10 witness: an update with every key absent, against the empty store. -/
theorem c10_update_requires_title_witness :
    updateTask 0 [] 1 1
        { title := none, description := none, status := none,
          priority := none, dueDate := none }
      = (.httpError 400 "title is required", []) :=
  c10_update_requires_title 0 [] 1 1 _ rfl

/-- C4: when a registration has succeeded, a second registration whose email
agrees with the first after lowercasing is answered with the 400
duplicate-email error and leaves the user store untouched, and the
all-emails-distinct invariant of the store is preserved by the first
registration. -/
theorem c4_register_duplicate_email (emailOk : String → Bool) (hash : String → String)
    (secret : String) (db : List User) (freshId1 freshId2 now1 now2 : Nat)
    (b1 b2 : RegisterBody)
    (hv1 : validateRegister emailOk b1 = .ok b1)
    (hfind1 : db.find? (fun u => u.email == strLower b1.email) = none)
    (hfresh : ∀ v ∈ db, v._id ≠ freshId1)
    (hv2 : validateRegister emailOk b2 = .ok b2)
    (hlow : strLower b2.email = strLower b1.email) :
    (∃ u1 t1, (register emailOk hash secret db freshId1 now1 b1).1 = .created u1 t1)
    ∧ register emailOk hash secret (register emailOk hash secret db freshId1 now1 b1).2
        freshId2 now2 b2
      = (.httpError 400 "User already exists with this email",
         (register emailOk hash secret db freshId1 now1 b1).2)
    ∧ ((db.map User.email).Nodup →
        ((register emailOk hash secret db freshId1 now1 b1).2.map User.email).Nodup) := by
  have hnotmem : strLower b1.email ∉ db.map User.email := by
    intro hm
    rcases List.mem_map.mp hm with ⟨v, hv, he⟩
    have hne := List.find?_eq_none.mp hfind1 v hv
    simp [he] at hne
  simp only [register, hv1, hfind1]
  set u0 : User :=
    { _id := freshId1, name := strTrim b1.name, email := strLower b1.email,
      password := hash b1.password, role := Role.user, createdAt := now1,
      tokens := [] } with hu0
  set u1 : User := (generateAuthToken u0 secret now1).2 with hu1
  have hfresh1 : ∀ v ∈ db, v._id ≠ u1._id := hfresh
  rw [saveUser_append_of_fresh db u0 u1 rfl hfresh1]
  refine ⟨⟨_, _, rfl⟩, ?_, ?_⟩
  · simp only [register, hv2]
    rw [hlow, List.find?_append, hfind1]
    have hfu1 : List.find? (fun u => u.email == strLower b1.email) [u1] = some u1 :=
      List.find?_cons_of_pos _ (beq_self_eq_true (strLower b1.email))
    rw [Option.none_or, hfu1]
  · intro hnd
    have hmapu1 : ([u1].map User.email) = [strLower b1.email] := by
      rw [hu1, hu0]
      rfl
    rw [List.map_append, hmapu1, List.nodup_append]
    refine ⟨hnd, by simp, ?_⟩
    intro a ha hb
    rw [List.mem_singleton] at hb
    exact hnotmem (hb ▸ ha)

/-- C4 witness: two registrations against an initially empty store whose
emails differ only in letter case. -/
theorem c4_register_duplicate_email_witness :
    (∃ u1 t1, (register (fun _ => true) (fun s => s) "cs" [] 1 0
        { name := "ann", email := "A@b.co", password := "pw1234" }).1 = .created u1 t1)
    ∧ register (fun _ => true) (fun s => s) "cs"
        (register (fun _ => true) (fun s => s) "cs" [] 1 0
          { name := "ann", email := "A@b.co", password := "pw1234" }).2 2 1
        { name := "bob", email := "a@B.co", password := "pw5678" }
      = (.httpError 400 "User already exists with this email",
         (register (fun _ => true) (fun s => s) "cs" [] 1 0
           { name := "ann", email := "A@b.co", password := "pw1234" }).2)
    ∧ ((([] : List User).map User.email).Nodup →
        ((register (fun _ => true) (fun s => s) "cs" [] 1 0
          { name := "ann", email := "A@b.co", password := "pw1234" }).2.map User.email).Nodup) :=
  c4_register_duplicate_email (fun _ => true) (fun s => s) "cs" [] 1 2 0 1
    { name := "ann", email := "A@b.co", password := "pw1234" }
    { name := "bob", email := "a@B.co", password := "pw5678" }
    rfl rfl (by simp) rfl (by decide)

/-- C6: a login against a registered email with a rejected password and a
login against an email registered to nobody produce the very same response,
a 401 with the Invalid credentials body, and neither touches the store. -/
theorem c6_login_uniform_error (emailOk : String → Bool) (compare : String → String → Bool)
    (secret : String) (db : List User) (now1 now2 : Nat) (b1 b2 : LoginBody) (u : User)
    (hv1 : validateLogin emailOk b1 = .ok b1)
    (hv2 : validateLogin emailOk b2 = .ok b2)
    (hfound : db.find? (fun v => v.email == strLower b1.email) = some u)
    (hwrong : compare b1.password u.password = false)
    (hunknown : db.find? (fun v => v.email == strLower b2.email) = none) :
    login emailOk compare secret db now1 b1 = (.httpError 401 "Invalid credentials", db)
    ∧ login emailOk compare secret db now2 b2 = (.httpError 401 "Invalid credentials", db)
    ∧ login emailOk compare secret db now1 b1 = login emailOk compare secret db now2 b2 := by
  have e1 : login emailOk compare secret db now1 b1
      = (.httpError 401 "Invalid credentials", db) := by
    simp only [login, hv1, hfound, hwrong]
    rfl
  have e2 : login emailOk compare secret db now2 b2
      = (.httpError 401 "Invalid credentials", db) := by
    simp only [login, hv2, hunknown]
  exact ⟨e1, e2, e1.trans e2.symm⟩

/-- C6 witness: one stored user, a wrong-password attempt on that email and
an attempt on an unknown email. -/
theorem c6_login_uniform_error_witness :
    login (fun _ => true) (fun _ _ => false) "cs" [wUser] 0
        { email := "a@b.co", password := "x" }
      = (.httpError 401 "Invalid credentials", [wUser])
    ∧ login (fun _ => true) (fun _ _ => false) "cs" [wUser] 1
        { email := "z@b.co", password := "x" }
      = (.httpError 401 "Invalid credentials", [wUser])
    ∧ login (fun _ => true) (fun _ _ => false) "cs" [wUser] 0
        { email := "a@b.co", password := "x" }
      = login (fun _ => true) (fun _ _ => false) "cs" [wUser] 1
          { email := "z@b.co", password := "x" } :=
  c6_login_uniform_error (fun _ => true) (fun _ _ => false) "cs" [wUser] 0 1
    { email := "a@b.co", password := "x" } { email := "z@b.co", password := "x" } wUser
    rfl rfl (by decide) rfl (by decide)

/-- C8: the outward JSON of a user never carries the password hash or the
token list: toJSON drops exactly those keys, and the register, login and me
responses each embed the user through toJSON. -/
theorem c8_user_json_excludes_sensitive :
    (∀ u : User, "password" ∉ (toJSON u).map Prod.fst ∧ "tokens" ∉ (toJSON u).map Prod.fst)
    ∧ (∀ (u : User) (t : Tok), renderRegister (.created u t)
        = (201, .obj [("message", .s "User registered successfully"),
                      ("user", .obj (toJSON u)), ("token", .tok t)]))
    ∧ (∀ (u : User) (t : Tok), renderLogin (.success u t)
        = (200, .obj [("message", .s "Login successful"),
                      ("user", .obj (toJSON u)), ("token", .tok t)]))
    ∧ (∀ u : User, meResponse u = (200, .obj [("user", .obj (toJSON u))])) := by
  refine ⟨fun u => ?_, fun u t => rfl, fun u t => rfl, fun u => rfl⟩
  have hk : (toJSON u).map Prod.fst = ["_id", "name", "email", "role", "createdAt"] := rfl
  rw [hk]
  exact ⟨by decide, by decide⟩

/-- C7: over a store where the caller owns exactly 15 tasks, the list route
with page 2 and limit 10 returns 5 items, total 15 and pages 2; in general
total is the pre-pagination match count, pages times limit brackets total
from above within one limit (the ceiling of total over limit), and the
defaults are page 1, limit 10 and creation time descending. -/
theorem c7_pagination (allTasks : List Task) (uid : Nat)
    (h15 : (allTasks.filter (fun x => decide (x.owner = uid))).length = 15) :
    (listTasks allTasks uid wPageQuery).tasks.length = 5
    ∧ (listTasks allTasks uid wPageQuery).pagination.total = 15
    ∧ (listTasks allTasks uid wPageQuery).pagination.pages = 2
    ∧ (∀ q : ListQuery, (listTasks allTasks uid q).pagination.total
        = (allTasks.filter (matchesQuery uid q)).length)
    ∧ (∀ q : ListQuery, 0 < q.limit.getD 10 →
        (listTasks allTasks uid q).pagination.total
          ≤ (listTasks allTasks uid q).pagination.pages * q.limit.getD 10
        ∧ (listTasks allTasks uid q).pagination.pages * q.limit.getD 10
          < (listTasks allTasks uid q).pagination.total + q.limit.getD 10)
    ∧ (listTasks allTasks uid wDefaultQuery).pagination.page = 1
    ∧ (listTasks allTasks uid wDefaultQuery).pagination.limit = 10
    ∧ (listTasks allTasks uid wDefaultQuery).tasks.Pairwise
        (fun a b => b.createdAt ≤ a.createdAt) := by
  have hfq : ∀ q : ListQuery, q.status = none → q.priority = none →
      allTasks.filter (matchesQuery uid q) = allTasks.filter (fun x => decide (x.owner = uid)) := by
    intro q hs hp
    apply List.filter_congr
    intro x _
    simp [matchesQuery, hs, hp]
  have hf2 := hfq wPageQuery rfl rfl
  have hfd := hfq wDefaultQuery rfl rfl
  have hcomp : sortComp "createdAt" "desc" = fun a b : Task => decide (b.createdAt ≤ a.createdAt) :=
    rfl
  simp only [listTasks]
  refine ⟨?_, ?_, ?_, ?_, fun q hl => ceil_div_spec _ _ hl, rfl, rfl, ?_⟩
  · rw [hf2]
    simp [List.length_take, List.length_drop, List.length_mergeSort, h15, wPageQuery]
  · rw [hf2]
    exact h15
  · rw [hf2, h15]
    rfl
  · intro q
    trivial
  · have htrans : ∀ a b c : Task, sortComp "createdAt" "desc" a b = true →
        sortComp "createdAt" "desc" b c = true → sortComp "createdAt" "desc" a c = true := by
      intro a b c h1 h2
      simp only [hcomp] at h1 h2 ⊢
      exact decide_eq_true (Nat.le_trans (of_decide_eq_true h2) (of_decide_eq_true h1))
    have htotal : ∀ a b : Task,
        (sortComp "createdAt" "desc" a b || sortComp "createdAt" "desc" b a) = true := by
      intro a b
      simp only [hcomp]
      rcases Nat.le_total b.createdAt a.createdAt with h | h <;> simp [h]
    have hsorted := List.sorted_mergeSort htrans htotal
      (allTasks.filter (matchesQuery uid wDefaultQuery))
    have hs2 : ((allTasks.filter (matchesQuery uid wDefaultQuery)).mergeSort
        (sortComp "createdAt" "desc")).Pairwise (fun a b : Task => b.createdAt ≤ a.createdAt) :=
      hsorted.imp (fun h => by simp only [hcomp] at h; exact of_decide_eq_true h)
    exact List.Pairwise.sublist (List.take_sublist _ _)
      (List.Pairwise.sublist (List.drop_sublist _ _) hs2)

/-- C7 witness: the fifteen concrete tasks of user 1. -/
theorem c7_pagination_witness :
    (listTasks wTasks 1 wPageQuery).tasks.length = 5
    ∧ (listTasks wTasks 1 wPageQuery).pagination.total = 15
    ∧ (listTasks wTasks 1 wPageQuery).pagination.pages = 2
    ∧ (∀ q : ListQuery, (listTasks wTasks 1 q).pagination.total
        = (wTasks.filter (matchesQuery 1 q)).length)
    ∧ (∀ q : ListQuery, 0 < q.limit.getD 10 →
        (listTasks wTasks 1 q).pagination.total
          ≤ (listTasks wTasks 1 q).pagination.pages * q.limit.getD 10
        ∧ (listTasks wTasks 1 q).pagination.pages * q.limit.getD 10
          < (listTasks wTasks 1 q).pagination.total + q.limit.getD 10)
    ∧ (listTasks wTasks 1 wDefaultQuery).pagination.page = 1
    ∧ (listTasks wTasks 1 wDefaultQuery).pagination.limit = 10
    ∧ (listTasks wTasks 1 wDefaultQuery).tasks.Pairwise
        (fun a b => b.createdAt ≤ a.createdAt) :=
  c7_pagination wTasks 1 (by decide)

end TaskApi
